import Mathlib

/-!
Shallow embedding of the Self_Healing_Memory core loop
(memory_core.py, monitor_agent.py, predictor_agent.py, healer_agent.py).

Byte counts are embedded as integers, percentages and scores as rationals.
Fallible code (exceptions) is embedded as `Except`-valued inputs: the value
`.error e` stands for "the underlying operation raised an exception with
message `e`".
-/

namespace SHM

/-! ## memory_core.py -/

/-- The dictionary returned by `get_memory_stats` and the platform helpers. -/
structure MemoryStats where
  total : ℤ
  free : ℤ
  available : ℤ
  used : ℤ
  used_percent : ℚ
  buffers : Option ℤ := none
  cached : Option ℤ := none
  error : Option String := none
deriving DecidableEq

/-- The zero-filled error sample built in the `except` branch of
`get_memory_stats` (memory_core.py lines 50-59). -/
def zeroErrorStats (e : String) : MemoryStats :=
  { total := 0, free := 0, available := 0, used := 0, used_percent := 0,
    error := some e }

/-- `get_memory_stats` (memory_core.py lines 32-59): the backend (Rust
library or Python platform path) either produces a stats dictionary or
raises; on raise the function returns the zero-filled error sample. -/
def get_memory_stats (backend : Except String MemoryStats) : MemoryStats :=
  match backend with
  | .ok s => s
  | .error e => zeroErrorStats e

/-- The fields parsed out of `/proc/meminfo` by `_get_memory_stats_linux`
(memory_core.py lines 89-105); each is a non-negative byte count, with 0
as the `.get` default for a missing key. -/
structure MemInfo where
  MemTotal : ℕ
  MemFree : ℕ
  MemAvailable : ℕ
  Buffers : ℕ
  Cached : ℕ
deriving DecidableEq

/-- `used = total - free - buffers - cached` (memory_core.py line 108). -/
def linuxUsed (m : MemInfo) : ℤ :=
  (m.MemTotal : ℤ) - (m.MemFree : ℤ) - (m.Buffers : ℤ) - (m.Cached : ℤ)

/-- `used_percent = (used / total) * 100 if total > 0 else 0`
(memory_core.py line 109). -/
def linuxUsedPercent (m : MemInfo) : ℚ :=
  if 0 < m.MemTotal then ((linuxUsed m : ℚ) / (m.MemTotal : ℚ)) * 100 else 0

/-- The dictionary returned by `_get_memory_stats_linux`
(memory_core.py lines 111-120). -/
def linuxMemoryStats (m : MemInfo) : MemoryStats :=
  { total := m.MemTotal, free := m.MemFree, available := m.MemAvailable,
    used := linuxUsed m, used_percent := linuxUsedPercent m,
    buffers := some (m.Buffers : ℤ), cached := some (m.Cached : ℤ),
    error := none }

/-! ## monitor_agent.py -/

/-- The analysis dictionary built by `analyze_memory_conditions`
(monitor_agent.py lines 104-110). -/
structure AnalysisResult where
  anomaly_detected : Bool
  severity : String
  usage_level : String
  anomaly_description : Option String := none
  recommendation : Option String := none
deriving DecidableEq

/-- `analyze_memory_conditions` (monitor_agent.py lines 100-135), rule-based
path (no enhancer): a pure function of `used_percent` and `free`. -/
def analyze_memory_conditions (used_percent : ℚ) (free_memory : ℤ) :
    AnalysisResult :=
  let usage_level :=
    if used_percent > 90 then "critical"
    else if used_percent > 80 then "high"
    else if used_percent > 60 then "moderate"
    else "normal"
  if used_percent > 90 ∧ free_memory < 500 * 1024 * 1024 then
    { anomaly_detected := true, severity := "critical", usage_level,
      anomaly_description := some "Critical memory shortage detected",
      recommendation := some "Immediate memory cleanup required" }
  else if used_percent > 80 then
    { anomaly_detected := true, severity := "high", usage_level,
      anomaly_description := some "High memory usage detected",
      recommendation := some "Consider freeing unused memory" }
  else
    { anomaly_detected := false, severity := "normal", usage_level }

/-! ## healer_agent.py -/

/-- A healing-plan action dictionary: `action_type`, `description`,
`priority`, and for `custom_command` actions an optional `command`. -/
structure Action where
  action_type : String
  description : String := ""
  priority : Option String := none
  command : Option String := none
deriving DecidableEq

/-- The first rule-based action for `used_percent > 95`
(healer_agent.py lines 137-141). -/
def clearCacheHigh : Action :=
  { action_type := "clear_cache",
    description := "Clear system cache to free memory",
    priority := some "high" }

/-- The second rule-based action for `used_percent > 95`
(healer_agent.py lines 142-146). -/
def defragmentHigh : Action :=
  { action_type := "defragment",
    description := "Perform memory defragmentation",
    priority := some "high" }

/-- The rule-based action for `95 >= used_percent > 85`
(healer_agent.py lines 149-153). -/
def clearCacheMedium : Action :=
  { action_type := "clear_cache",
    description := "Clear system cache to free memory",
    priority := some "medium" }

/-- The rule-based action for `85 >= used_percent > 75`
(healer_agent.py lines 156-160). -/
def optimizeLow : Action :=
  { action_type := "optimize",
    description := "Optimize memory usage",
    priority := some "low" }

/-- The single action of the error-fallback plan
(healer_agent.py lines 183-187). -/
def emergencyClearCache : Action :=
  { action_type := "clear_cache",
    description := "Emergency cache clearing due to error",
    priority := some "high" }

/-- The healing-plan dictionary (healer_agent.py lines 127-131 and
180-188); `memory_usage` and `severity` keys are absent from the
error-fallback plan, hence optional. -/
structure HealingPlan where
  memory_usage : Option ℚ := none
  severity : Option String := none
  actions : List Action := []
  error : Option String := none
deriving DecidableEq

/-- The rule-based part of `generate_healing_plan`
(healer_agent.py lines 127-160): severity bands strictly by
`used_percent`. -/
def generateHealingPlanRule (used_percent : ℚ) : HealingPlan :=
  if used_percent > 95 then
    { memory_usage := some used_percent, severity := some "critical",
      actions := [clearCacheHigh, defragmentHigh] }
  else if used_percent > 85 then
    { memory_usage := some used_percent, severity := some "high",
      actions := [clearCacheMedium] }
  else if used_percent > 75 then
    { memory_usage := some used_percent, severity := some "moderate",
      actions := [optimizeLow] }
  else
    { memory_usage := some used_percent, actions := [] }

/-- The fallback plan built in the `except` branch of
`generate_healing_plan` (healer_agent.py lines 180-188). -/
def errorFallbackPlan (e : String) : HealingPlan :=
  { error := some e, actions := [emergencyClearCache] }

/-- `generate_healing_plan` (healer_agent.py lines 116-188, without the
enhancer, i.e. `rag_pipeline is None`): the `outcome` input is `.ok u`
when the body runs without raising on a sample with `used_percent = u`,
and `.error e` when some exception `e` is raised inside the `try`. -/
def generate_healing_plan (outcome : Except String ℚ) : HealingPlan :=
  match outcome with
  | .ok used_percent => generateHealingPlanRule used_percent
  | .error e => errorFallbackPlan e

/-- The allow-list shared by the executor and the enhancer-plan filter
(healer_agent.py lines 237 and 461). -/
def allowed_commands : List String :=
  ["sync", "echo 3 > /proc/sys/vm/drop_caches"]

/-- The safety filter applied to an enhancer-sourced plan's actions
(healer_agent.py lines 455-466): keep only known action types, and for a
`custom_command` carrying a `command`, keep it only when the command is in
the allow-list. -/
def is_safe_action (a : Action) : Bool :=
  if a.action_type ∈ ["clear_cache", "defragment", "optimize", "custom_command"]
  then
    if a.action_type = "custom_command" then
      match a.command with
      | some cmd => decide (cmd ∈ allowed_commands)
      | none => true
    else true
  else false

/-- `safe_actions` list built by `_llm_enhanced_plan`
(healer_agent.py lines 456-466). -/
def filter_safe_actions (actions : List Action) : List Action :=
  actions.filter is_safe_action

/-- The per-action result dictionary built by `execute_actions`
(healer_agent.py lines 210-215), extended with the effect trace
`ranCommand`: the command string passed to `subprocess.run` on the
`custom_command` path, if any. -/
structure ActionResult where
  action_type : String
  description : String
  success : Bool
  details : String
  ranCommand : Option String := none
deriving DecidableEq

/-- Environment outcome for the side-effecting steps of one action:
`cache_ok` is the return value of `release_memory_cache`, `cmd_ok` is
whether `subprocess.run(command, check=True)` returns without raising. -/
structure ActionEnv where
  cache_ok : Bool := true
  cmd_ok : Bool := true
deriving DecidableEq

/-- The body of the `for action in actions` loop of `execute_actions`
(healer_agent.py lines 208-252): dispatch on `action_type`; only the
allow-listed `custom_command` branch reaches `subprocess.run`. -/
def execute_action (env : ActionEnv) (a : Action) : ActionResult :=
  if a.action_type = "clear_cache" then
    { action_type := a.action_type, description := a.description,
      success := env.cache_ok,
      details := if env.cache_ok then "Memory cache cleared successfully"
                 else "Failed to clear memory cache" }
  else if a.action_type = "defragment" then
    { action_type := a.action_type, description := a.description,
      success := true, details := "Memory defragmentation completed" }
  else if a.action_type = "optimize" then
    { action_type := a.action_type, description := a.description,
      success := true, details := "Memory optimization completed" }
  else if a.action_type = "custom_command" then
    match a.command with
    | some cmd =>
        if cmd ∈ allowed_commands then
          { action_type := a.action_type, description := a.description,
            success := env.cmd_ok,
            details := if env.cmd_ok then "Custom command executed: " ++ cmd
                       else "Error executing action",
            ranCommand := some cmd }
        else
          { action_type := a.action_type, description := a.description,
            success := false,
            details := "Command not in allowed list: " ++ cmd }
    | none =>
        { action_type := a.action_type, description := a.description,
          success := false,
          details := "Unknown action type: " ++ a.action_type }
  else
    { action_type := a.action_type, description := a.description,
      success := false,
      details := "Unknown action type: " ++ a.action_type }

/-- The results dictionary of `execute_actions`
(healer_agent.py lines 200-266), trimmed to the fields the loop
computes. -/
structure ExecResults where
  executed_actions : List ActionResult
  success : Bool
deriving DecidableEq

/-- The `for action in actions` loop of `execute_actions`
(healer_agent.py lines 208-257): each result is appended to
`executed_actions`, and `success` is reset to `False` whenever an action
result is unsuccessful. `env i` is the environment outcome for the `i`-th
action. -/
def execute_actions_loop (env : ℕ → ActionEnv) (i : ℕ) :
    List Action → List ActionResult → Bool → List ActionResult × Bool
  | [], acc, succ => (acc, succ)
  | a :: rest, acc, succ =>
      let r := execute_action (env i) a
      execute_actions_loop env (i + 1) rest (acc ++ [r])
        (if r.success then succ else false)

/-- `execute_actions` (healer_agent.py lines 190-266): run the loop with
`executed_actions = []` and `success = True`. -/
def execute_actions (env : ℕ → ActionEnv) (actions : List Action) :
    ExecResults :=
  let p := execute_actions_loop env 0 actions [] true
  { executed_actions := p.1, success := p.2 }

/-- The validation dictionary of `validate_healing_results`
(healer_agent.py lines 285-311). -/
structure ValidationResult where
  effective : Bool
  effectiveness_score : ℚ
deriving DecidableEq

/-- `validate_healing_results` (healer_agent.py lines 275-313):
`difference = before - after`, banded scoring. -/
def validate_healing_results (before_percent after_percent : ℚ) :
    ValidationResult :=
  let difference := before_percent - after_percent
  if difference > 10 then { effective := true, effectiveness_score := 0.9 }
  else if difference > 5 then { effective := true, effectiveness_score := 0.7 }
  else if difference > 0 then { effective := true, effectiveness_score := 0.3 }
  else { effective := false, effectiveness_score := 0 }

/-! ## predictor_agent.py -/

/-- A predicted-issue dictionary (predictor_agent.py lines 133-145). -/
structure Issue where
  severity : String
  description : String
  probability : ℚ
  timeframe : String := "1 hour"
deriving DecidableEq

/-- The critical issue emitted when the raw 1-hour extrapolation exceeds 90
(predictor_agent.py lines 133-138). -/
def criticalIssue : Issue :=
  { severity := "critical",
    description := "Critical memory shortage predicted within 1 hour",
    probability := 0.8 }

/-- The high issue emitted when the raw 1-hour extrapolation exceeds 80 but
not 90 (predictor_agent.py lines 140-145). -/
def highIssue : Issue :=
  { severity := "high",
    description := "High memory usage predicted within 1 hour",
    probability := 0.7 }

/-- The prediction dictionary of `predict_memory_condition`
(predictor_agent.py lines 111-129). -/
structure Prediction where
  current_memory_used : ℚ
  predicted_memory_usage_1h : Option ℚ := none
  predicted_issues : List Issue := []
deriving DecidableEq

/-- `historical_data[-3:]` mapped to `used_percent`
(predictor_agent.py line 121): the last (up to) three history values. -/
def recent_values (history : List ℚ) : List ℚ :=
  history.drop (history.length - 3)

/-- `trend` (predictor_agent.py line 123): the sum of successive deltas of
the recent values divided by `len(recent_values) - 1`. -/
def trend_of (recent : List ℚ) : ℚ :=
  (List.zipWith (fun a b => a - b) recent.tail recent).sum /
    ((recent.length : ℚ) - 1)

/-- `predict_memory_condition` (predictor_agent.py lines 109-156), basic
rule-based path (no enhancer): `history` is `used_percent` of each
historical event in chronological order, `interval` is
`self.prediction_interval`. The trend branch runs only when there are at
least 3 history entries and the last 3 values are all truthy
(non-zero). -/
def predict_memory_condition (interval : ℚ) (current : ℚ)
    (history : List ℚ) : Prediction :=
  if 3 ≤ history.length ∧
      (recent_values history).all (fun v => decide (v ≠ 0)) then
    let trend := trend_of (recent_values history)
    let predicted_value_1h := current + trend * (3600 / interval)
    { current_memory_used := current,
      predicted_memory_usage_1h := some (min 100 (max 0 predicted_value_1h)),
      predicted_issues :=
        if predicted_value_1h > 90 then [criticalIssue]
        else if predicted_value_1h > 80 then [highIssue]
        else [] }
  else
    { current_memory_used := current }

/-! ## Enhancer merge (predictor_agent.py lines 151-154)

The prediction dictionary is modelled as an association list from keys to
JSON-like values; Python truthiness drives the merge condition
`if key not in prediction or value`. -/

/-- A JSON-like dictionary value, as far as the merge inspects it. -/
inductive PVal where
  | num : ℚ → PVal
  | str : String → PVal
  | boolV : Bool → PVal
  | arr : List PVal → PVal
  | nullV : PVal

/-- Python truthiness for the values a prediction dictionary holds. -/
def truthy : PVal → Bool
  | .num q => decide (q ≠ 0)
  | .str s => decide (s ≠ "")
  | .boolV b => b
  | .arr l => !l.isEmpty
  | .nullV => false

/-- `prediction[key] = value` on a Python dict: update in place when the
key exists, append otherwise. -/
def set_key : List (String × PVal) → String → PVal → List (String × PVal)
  | [], k, v => [(k, v)]
  | (k₀, v₀) :: rest, k, v =>
      if k₀ = k then (k, v) :: rest else (k₀, v₀) :: set_key rest k v

/-- The merge loop of `predict_memory_condition`
(predictor_agent.py lines 152-154):
`for key, value in enhanced_prediction.items(): if key not in prediction
or value: prediction[key] = value`. -/
def merge_enhanced (base enhanced : List (String × PVal)) :
    List (String × PVal) :=
  enhanced.foldl
    (fun acc kv =>
      if (acc.lookup kv.1).isNone || truthy kv.2 then set_key acc kv.1 kv.2
      else acc)
    base

end SHM

namespace SHM

/-! ### Helper lemmas -/

def exec_results (env : ℕ → ActionEnv) : ℕ → List Action → List ActionResult
  | _, [] => []
  | i, a :: rest => execute_action (env i) a :: exec_results env (i + 1) rest

theorem execute_actions_loop_eq (env : ℕ → ActionEnv) (i : ℕ)
    (actions : List Action) (acc : List ActionResult) (succ : Bool) :
    execute_actions_loop env i actions acc succ =
      (acc ++ exec_results env i actions,
       succ && (exec_results env i actions).all fun r => r.success) := by
  induction actions generalizing i acc succ with
  | nil => simp [execute_actions_loop, exec_results]
  | cons a rest ih =>
      have hb : ∀ b s : Bool, (if b then s else false) = (s && b) := by decide
      simp [execute_actions_loop, exec_results, ih, hb, List.all_cons,
        Bool.and_assoc]

theorem exec_results_length (env : ℕ → ActionEnv) (i : ℕ)
    (actions : List Action) :
    (exec_results env i actions).length = actions.length := by
  induction actions generalizing i with
  | nil => rfl
  | cons a rest ih => simp [exec_results, ih]

theorem exec_results_getElem (env : ℕ → ActionEnv) (i j : ℕ)
    (actions : List Action) :
    (exec_results env i actions)[j]? =
      (actions[j]?).map fun a => execute_action (env (i + j)) a := by
  induction actions generalizing i j with
  | nil => simp [exec_results]
  | cons a rest ih =>
      cases j with
      | zero => simp [exec_results]
      | succ j =>
          have hadd : i + 1 + j = i + (j + 1) := by omega
          simp [exec_results, ih, hadd]

theorem mem_exec_results {env : ℕ → ActionEnv} {i : ℕ}
    {actions : List Action} {r : ActionResult}
    (h : r ∈ exec_results env i actions) :
    ∃ j a, a ∈ actions ∧ r = execute_action (env j) a := by
  induction actions generalizing i with
  | nil => simp [exec_results] at h
  | cons a rest ih =>
      rcases List.mem_cons.mp h with h0 | h1
      · exact ⟨i, a, List.mem_cons_self a rest, h0⟩
      · obtain ⟨j, b, hb, hr⟩ := ih h1
        exact ⟨j, b, List.mem_cons_of_mem a hb, hr⟩

theorem execute_action_ranCommand_mem {env : ActionEnv} {a : Action}
    {cmd : String} (h : (execute_action env a).ranCommand = some cmd) :
    cmd ∈ allowed_commands := by
  unfold execute_action at h
  split_ifs at h <;> try simp_all
  all_goals split at h <;> try simp_all
  all_goals split at h <;> simp_all

theorem lookup_set_key_self (acc : List (String × PVal)) (k : String)
    (v : PVal) : (set_key acc k v).lookup k = some v := by
  induction acc with
  | nil => simp [set_key, List.lookup]
  | cons p rest ih =>
      obtain ⟨k₀, v₀⟩ := p
      by_cases h : k₀ = k
      · simp [set_key, h, List.lookup]
      · have h2 : (k == k₀) = false := by
          simp [beq_iff_eq]
          exact fun he => h he.symm
        simp [set_key, h, List.lookup, h2, ih]

theorem lookup_set_key_ne (acc : List (String × PVal)) (k k₂ : String)
    (v : PVal) (h : k₂ ≠ k) :
    (set_key acc k v).lookup k₂ = acc.lookup k₂ := by
  have hbeq : (k₂ == k) = false := beq_eq_false_iff_ne.mpr h
  induction acc with
  | nil => simp [set_key, List.lookup, hbeq]
  | cons p rest ih =>
      obtain ⟨k₀, v₀⟩ := p
      by_cases h0 : k₀ = k
      · subst h0
        simp [set_key, List.lookup, hbeq, ih]
      · simp [set_key, h0, List.lookup, ih]

theorem merge_lookup_of_not_mem (base enhanced : List (String × PVal))
    (k : String) (h : k ∉ enhanced.map Prod.fst) :
    (merge_enhanced base enhanced).lookup k = base.lookup k := by
  induction enhanced generalizing base with
  | nil => rfl
  | cons p rest ih =>
      obtain ⟨k₀, v₀⟩ := p
      simp only [List.map_cons, List.mem_cons, not_or] at h
      obtain ⟨hk, hrest⟩ := h
      show (merge_enhanced
        (if (base.lookup k₀).isNone || truthy v₀ then set_key base k₀ v₀
         else base) rest).lookup k = base.lookup k
      rw [ih _ hrest]
      split_ifs with hc
      · exact lookup_set_key_ne base k₀ k v₀ hk
      · rfl

/-! ### Claim theorems -/

/-- C2: `validate_healing_results` returns `effective = (before - after > 0)`
and the effectiveness score banded exactly as: difference > 10 gives 0.9,
10 >= difference > 5 gives 0.7, 5 >= difference > 0 gives 0.3, and
difference <= 0 gives 0.0 with `effective = false`. -/
theorem claim_validation_banding (b a : ℚ) :
    (validate_healing_results b a).effective = decide (b - a > 0) ∧
    (validate_healing_results b a).effectiveness_score =
      (if b - a > 10 then 0.9 else if b - a > 5 then 0.7
       else if b - a > 0 then 0.3 else 0) := by
  constructor <;> simp only [validate_healing_results] <;>
    split_ifs with h1 h2 h3 <;> try rfl
  · have : b - a > 0 := by linarith
    simp [this]
  · have : b - a > 0 := by linarith
    simp [this]
  · simp [h3]
  · simp [h3]

/-- C2 witness: before=90, after=78 gives effective=true and score 0.9;
before=90, after=91 gives effective=false and score 0.0. -/
theorem claim_validation_banding_witness :
    (validate_healing_results 90 78).effective = true ∧
    (validate_healing_results 90 78).effectiveness_score = 0.9 ∧
    (validate_healing_results 90 91).effective = false ∧
    (validate_healing_results 90 91).effectiveness_score = 0 := by
  have h1 := claim_validation_banding 90 78
  have h2 := claim_validation_banding 90 91
  refine ⟨h1.1.trans (by norm_num), h1.2.trans (by norm_num),
    h2.1.trans (by norm_num), h2.2.trans (by norm_num)⟩

/-- C4: the rule-based healing plan is determined solely by `used_percent`
in strict bands: > 95 gives severity critical with exactly
clear_cache(high) and defragment(high); 95 >= u > 85 gives severity high
with exactly clear_cache(medium); 85 >= u > 75 gives severity moderate with
exactly optimize(low); u <= 75 gives an empty actions list. -/
theorem claim_plan_bands (u : ℚ) :
    (u > 95 → generateHealingPlanRule u =
      { memory_usage := some u, severity := some "critical",
        actions := [clearCacheHigh, defragmentHigh] }) ∧
    (u ≤ 95 → u > 85 → generateHealingPlanRule u =
      { memory_usage := some u, severity := some "high",
        actions := [clearCacheMedium] }) ∧
    (u ≤ 85 → u > 75 → generateHealingPlanRule u =
      { memory_usage := some u, severity := some "moderate",
        actions := [optimizeLow] }) ∧
    (u ≤ 75 → (generateHealingPlanRule u).actions = [] ∧
      (generateHealingPlanRule u).severity = none) := by
  refine ⟨fun h1 => ?_, fun h1 h2 => ?_, fun h1 h2 => ?_, fun h1 => ?_⟩ <;>
    simp only [generateHealingPlanRule] <;> split_ifs <;>
    first | rfl | exact ⟨rfl, rfl⟩ | (exfalso; linarith)

/-- C4 witness: used_percent=96 gives severity critical with exactly
clear_cache(high) and defragment(high); used_percent=70 gives an empty
actions list. -/
theorem claim_plan_bands_witness :
    (generateHealingPlanRule 96).severity = some "critical" ∧
    (generateHealingPlanRule 96).actions = [clearCacheHigh, defragmentHigh] ∧
    (generateHealingPlanRule 70).actions = [] := by
  have h1 := (claim_plan_bands 96).1 (by norm_num)
  have h2 := (claim_plan_bands 70).2.2.2 (by norm_num)
  rw [h1]
  exact ⟨rfl, rfl, h2.1⟩

/-- C8: whenever the underlying stats acquisition raises,
`get_memory_stats` returns a sample with total, free, available, used and
used_percent all 0 and an error marker, and on a successful backend read it
returns that sample unchanged; it is a total function (never raises). -/
theorem claim_zero_sample_on_failure (e : String) :
    (get_memory_stats (Except.error e)).total = 0 ∧
    (get_memory_stats (Except.error e)).free = 0 ∧
    (get_memory_stats (Except.error e)).available = 0 ∧
    (get_memory_stats (Except.error e)).used = 0 ∧
    (get_memory_stats (Except.error e)).used_percent = 0 ∧
    (get_memory_stats (Except.error e)).error = some e ∧
    (∀ s : MemoryStats, get_memory_stats (Except.ok s) = s) :=
  ⟨rfl, rfl, rfl, rfl, rfl, rfl, fun _ => rfl⟩

/-- C8 witness at a concrete exception message. -/
theorem claim_zero_sample_on_failure_witness :
    (get_memory_stats (Except.error "boom")).used_percent = 0 ∧
    (get_memory_stats (Except.error "boom")).error = some "boom" := by
  have h := claim_zero_sample_on_failure "boom"
  exact ⟨h.2.2.2.2.1, h.2.2.2.2.2.1⟩

/-- C10: on any exception while building a healing plan,
`generate_healing_plan` returns the error-fallback plan: a non-empty
actions list holding exactly one clear_cache action with priority high,
plus an error field. -/
theorem claim_error_fallback_plan (e : String) :
    (generate_healing_plan (Except.error e)).actions = [emergencyClearCache] ∧
    (generate_healing_plan (Except.error e)).actions ≠ [] ∧
    emergencyClearCache.action_type = "clear_cache" ∧
    emergencyClearCache.priority = some "high" ∧
    (generate_healing_plan (Except.error e)).error = some e :=
  ⟨rfl, by simp [generate_healing_plan, errorFallbackPlan], rfl, rfl, rfl⟩

/-- C10 witness at a concrete exception message. -/
theorem claim_error_fallback_plan_witness :
    (generate_healing_plan (Except.error "kaput")).actions =
      [emergencyClearCache] ∧
    (generate_healing_plan (Except.error "kaput")).actions ≠ [] := by
  have h := claim_error_fallback_plan "kaput"
  exact ⟨h.1, h.2.1⟩

/-- C5: anomaly classification is a pure total function of `used_percent`
and `free`: usage_level is critical when u > 90, high when 90 >= u > 80,
moderate when 80 >= u > 60, else normal; the anomaly triggers are evaluated
in order (critical trigger u > 90 and free < 500 MiB first, then high
trigger u > 80), first match wins, else no anomaly with severity normal. -/
theorem claim_anomaly_classification (u : ℚ) (free_memory : ℤ) :
    (analyze_memory_conditions u free_memory).usage_level =
      (if u > 90 then "critical" else if u > 80 then "high"
       else if u > 60 then "moderate" else "normal") ∧
    (u > 90 ∧ free_memory < 500 * 1024 * 1024 →
      (analyze_memory_conditions u free_memory).anomaly_detected = true ∧
      (analyze_memory_conditions u free_memory).severity = "critical") ∧
    (¬(u > 90 ∧ free_memory < 500 * 1024 * 1024) → u > 80 →
      (analyze_memory_conditions u free_memory).anomaly_detected = true ∧
      (analyze_memory_conditions u free_memory).severity = "high") ∧
    (¬(u > 90 ∧ free_memory < 500 * 1024 * 1024) → ¬(u > 80) →
      (analyze_memory_conditions u free_memory).anomaly_detected = false ∧
      (analyze_memory_conditions u free_memory).severity = "normal") := by
  refine ⟨?_, fun h1 => ?_, fun h1 h2 => ?_, fun h1 h2 => ?_⟩ <;>
    simp only [analyze_memory_conditions] <;> split_ifs <;>
    first | rfl | exact ⟨rfl, rfl⟩

/-- C5 witness: classify(91%, 400MiB) is anomaly=true severity=critical,
classify(85%, 2GiB) is anomaly=true severity=high, classify(50%, 1GiB) is
anomaly=false severity=normal. -/
theorem claim_anomaly_classification_witness :
    (analyze_memory_conditions 91 (400 * 1024 * 1024)).anomaly_detected
        = true ∧
    (analyze_memory_conditions 91 (400 * 1024 * 1024)).severity
        = "critical" ∧
    (analyze_memory_conditions 85 (2 * 1024 * 1024 * 1024)).anomaly_detected
        = true ∧
    (analyze_memory_conditions 85 (2 * 1024 * 1024 * 1024)).severity
        = "high" ∧
    (analyze_memory_conditions 50 (1024 * 1024 * 1024)).anomaly_detected
        = false ∧
    (analyze_memory_conditions 50 (1024 * 1024 * 1024)).severity
        = "normal" := by
  have h1 := (claim_anomaly_classification 91 (400 * 1024 * 1024)).2.1
    ⟨by norm_num, by norm_num⟩
  have h2 := (claim_anomaly_classification 85 (2 * 1024 * 1024 * 1024)).2.2.1
    (by norm_num) (by norm_num)
  have h3 := (claim_anomaly_classification 50 (1024 * 1024 * 1024)).2.2.2
    (by norm_num) (by norm_num)
  exact ⟨h1.1, h1.2, h2.1, h2.2, h3.1, h3.2⟩

/-- A `custom_command` action carrying the allow-listed command
`sync`. -/
def syncCommandAction : Action :=
  { action_type := "custom_command", command := some "sync" }

/-- A `custom_command` action carrying a command outside the
allow-list. -/
def rmCommandAction : Action :=
  { action_type := "custom_command", command := some "rm -rf /" }

/-- The all-successful action environment. -/
def defaultEnv : ActionEnv := { cache_ok := true, cmd_ok := true }

/-- C1: a `custom_command` action whose command is outside the fixed
allow-list is never executed: the enhancer-plan safety filter keeps a
`custom_command` action only when its command is allow-listed, the
executor only ever passes allow-listed strings to the shell, rule-based
plans carry no command strings at all, and a `custom_command` action with
command "sync" is accepted by the filter and executed. -/
theorem claim_allowlist_enforcement :
    (∀ actions : List Action, ∀ a ∈ filter_safe_actions actions,
      ∀ cmd : String, a.command = some cmd →
      a.action_type = "custom_command" → cmd ∈ allowed_commands) ∧
    (∀ env : ℕ → ActionEnv, ∀ actions : List Action,
      ∀ r ∈ (execute_actions env actions).executed_actions,
      ∀ cmd : String, r.ranCommand = some cmd → cmd ∈ allowed_commands) ∧
    (∀ u : ℚ, ∀ a ∈ (generateHealingPlanRule u).actions, a.command = none) ∧
    (∀ env : ActionEnv, ∀ a : Action, a.action_type = "custom_command" →
      a.command = some "sync" →
      (execute_action env a).ranCommand = some "sync" ∧
      (execute_action env a).success = env.cmd_ok ∧
      is_safe_action a = true) := by
  refine ⟨?_, ?_, ?_, ?_⟩
  · intro actions a ha cmd hcmd htype
    have hsafe : is_safe_action a = true :=
      (List.mem_filter.mp ha).2
    rw [is_safe_action, htype, hcmd] at hsafe
    simp at hsafe
    simpa using hsafe
  · intro env actions r hr cmd hcmd
    rw [execute_actions] at hr
    rw [execute_actions_loop_eq] at hr
    simp only [List.nil_append] at hr
    obtain ⟨j, a, _, hra⟩ := mem_exec_results hr
    exact execute_action_ranCommand_mem (hra ▸ hcmd)
  · intro u a ha
    rw [generateHealingPlanRule] at ha
    split_ifs at ha <;> simp_all <;>
      first
        | rfl
        | (rcases ha with h | h <;> subst h <;> rfl)
  · intro env a htype hcmd
    refine ⟨?_, ?_, ?_⟩ <;>
      simp [execute_action, is_safe_action, htype, hcmd, allowed_commands]

/-- C1 witness: the "sync" custom command is accepted and executed; the
"rm -rf /" custom command is filtered out of an enhancer plan and the
executor does not pass it to the shell. -/
theorem claim_allowlist_enforcement_witness :
    (execute_action defaultEnv syncCommandAction).ranCommand = some "sync" ∧
    is_safe_action syncCommandAction = true ∧
    filter_safe_actions [rmCommandAction] = [] ∧
    (execute_action defaultEnv rmCommandAction).ranCommand = none ∧
    (execute_action defaultEnv rmCommandAction).success = false := by
  have h := claim_allowlist_enforcement.2.2.2 defaultEnv
    syncCommandAction rfl rfl
  exact ⟨h.1, h.2.2, by decide, by decide, by decide⟩

/-- C7: a failing action does not prevent subsequent actions from being
processed: `execute_actions` produces exactly one result per input action,
in order (the i-th result is the executed i-th action), and the overall
success flag equals the conjunction of all the individual action success
flags. -/
theorem claim_execution_continuation (env : ℕ → ActionEnv)
    (actions : List Action) :
    (execute_actions env actions).executed_actions.length = actions.length ∧
    (∀ i : ℕ, (execute_actions env actions).executed_actions[i]? =
      (actions[i]?).map fun a => execute_action (env i) a) ∧
    (execute_actions env actions).success =
      (execute_actions env actions).executed_actions.all
        fun r => r.success := by
  have hloop := execute_actions_loop_eq env 0 actions [] true
  refine ⟨?_, fun i => ?_, ?_⟩
  · simp only [execute_actions, hloop, List.nil_append]
    exact exec_results_length env 0 actions
  · simp only [execute_actions, hloop, List.nil_append]
    simpa using exec_results_getElem env 0 i actions
  · simp only [execute_actions, hloop, List.nil_append, Bool.true_and]

/-- C3: with at least 3 history entries whose last 3 used_percent values
are all non-zero, `predict_memory_condition` computes the trend as the mean
successive delta of those 3 values, clamps the 1-hour extrapolation
`current + trend * (3600 / interval)` to [0, 100], and emits a critical
issue with probability 0.8 when the unclamped extrapolation exceeds 90 or
a high issue with probability 0.7 when it exceeds 80, otherwise no trend
issue; with fewer than 3 usable (non-zero) points no trend-based issue is
emitted and no 1-hour usage is predicted. -/
theorem claim_trend_extrapolation :
    (∀ v0 v1 v2 : ℚ, trend_of [v0, v1, v2] = ((v1 - v0) + (v2 - v1)) / 2) ∧
    (∀ interval current : ℚ, ∀ history : List ℚ,
      3 ≤ history.length →
      ((recent_values history).all fun v => decide (v ≠ 0)) = true →
      (predict_memory_condition interval current history).predicted_memory_usage_1h
          = some (min 100 (max 0
              (current + trend_of (recent_values history) * (3600 / interval)))) ∧
      (predict_memory_condition interval current history).predicted_issues
          = (if current + trend_of (recent_values history) * (3600 / interval)
                > 90 then [criticalIssue]
             else if current + trend_of (recent_values history) * (3600 / interval)
                > 80 then [highIssue]
             else [])) ∧
    (∀ interval current : ℚ, ∀ history : List ℚ,
      ¬(3 ≤ history.length ∧
        ((recent_values history).all fun v => decide (v ≠ 0)) = true) →
      (predict_memory_condition interval current history).predicted_issues
          = [] ∧
      (predict_memory_condition interval current history).predicted_memory_usage_1h
          = none) ∧
    criticalIssue.severity = "critical" ∧ criticalIssue.probability = 0.8 ∧
    highIssue.severity = "high" ∧ highIssue.probability = 0.7 := by
  refine ⟨fun v0 v1 v2 => ?_, fun interval current history h1 h2 => ?_,
    fun interval current history h => ?_, rfl, rfl, rfl, rfl⟩
  · simp [trend_of]
    ring
  · rw [predict_memory_condition, if_pos ⟨h1, h2⟩]
    exact ⟨rfl, rfl⟩
  · rw [predict_memory_condition, if_neg h]
    exact ⟨rfl, rfl⟩

/-- C3 witness: history used_percent values [60, 65, 70], interval 300s and
current usage 70 give trend 5, a predicted 1-hour usage clamped to 100, and
one critical issue with probability 0.8. -/
theorem claim_trend_extrapolation_witness :
    trend_of (recent_values [60, 65, 70]) = 5 ∧
    (predict_memory_condition 300 70 [60, 65, 70]).predicted_memory_usage_1h
        = some 100 ∧
    (predict_memory_condition 300 70 [60, 65, 70]).predicted_issues
        = [criticalIssue] ∧
    criticalIssue.severity = "critical" ∧
    criticalIssue.probability = 0.8 := by
  have htrend : trend_of (recent_values [60, 65, 70]) = 5 := by
    have h := claim_trend_extrapolation.1 60 65 70
    rw [show recent_values [60, 65, 70] = [60, 65, 70] from rfl, h]
    norm_num
  have h2 := claim_trend_extrapolation.2.1 300 70 [60, 65, 70]
    (by norm_num) (by norm_num [recent_values])
  refine ⟨htrend, ?_, ?_, rfl, rfl⟩
  · rw [h2.1, htrend]
    norm_num
  · rw [h2.2, htrend, if_pos (by norm_num : (70:ℚ) + 5 * (3600 / 300) > 90)]

/-- C6 counterexample: the rule-based baseline sets
`predicted_memory_usage_1h` to the truthy value 50, the enhancer also
supplies the key with the truthy value 99, and the merged prediction holds
the enhancer value — the baseline does not take precedence on this key
clash. -/
theorem claim_merge_baseline_precedence_counterexample :
    truthy (PVal.num 50) = true ∧
    (merge_enhanced
        [("current_memory_used", PVal.num 70),
         ("predicted_memory_usage_1h", PVal.num 50)]
        [("predicted_memory_usage_1h", PVal.num 99)]).lookup
        "predicted_memory_usage_1h" = some (PVal.num 99) ∧
    some (PVal.num 99) ≠ some (PVal.num 50) := by
  refine ⟨by norm_num [truthy], rfl, ?_⟩
  simp only [ne_eq, Option.some.injEq, PVal.num.injEq]
  norm_num

/-- C6 amended: in the predictor merge, an enhancer field overwrites the
rule-based baseline whenever the enhancer value is truthy or the key is
absent from the baseline; a baseline value survives only when the key is
already set and the enhancer value for it is falsy; keys the enhancer does
not mention keep their baseline value. -/
theorem claim_merge_enhancer_precedence (base enhanced : List (String × PVal))
    (hnd : (enhanced.map Prod.fst).Nodup) :
    (∀ k v, (k, v) ∈ enhanced →
      (merge_enhanced base enhanced).lookup k =
        (if (base.lookup k).isNone || truthy v then some v
         else base.lookup k)) ∧
    (∀ k, k ∉ enhanced.map Prod.fst →
      (merge_enhanced base enhanced).lookup k = base.lookup k) := by
  refine ⟨?_, merge_lookup_of_not_mem base enhanced⟩
  induction enhanced generalizing base with
  | nil => intro k v hkv; simp at hkv
  | cons p rest ih =>
      obtain ⟨k₀, v₀⟩ := p
      simp only [List.map_cons, List.nodup_cons] at hnd
      obtain ⟨hk₀, hndrest⟩ := hnd
      intro k v hkv
      have hstep : merge_enhanced base ((k₀, v₀) :: rest) =
          merge_enhanced
            (if (base.lookup k₀).isNone || truthy v₀ then set_key base k₀ v₀
             else base) rest := rfl
      rcases List.mem_cons.mp hkv with heq | hmem
      · injection heq with hk hv
        subst hk
        subst hv
        rw [hstep, merge_lookup_of_not_mem _ _ _ hk₀]
        by_cases hc : ((base.lookup k).isNone || truthy v) = true
        · rw [if_pos hc, if_pos hc]
          exact lookup_set_key_self base k v
        · rw [if_neg hc, if_neg hc]
      · have hkne : k ≠ k₀ := by
          intro hcon
          exact hk₀ (hcon ▸ List.mem_map_of_mem Prod.fst hmem)
        have hbase :
            ((if (base.lookup k₀).isNone || truthy v₀ then set_key base k₀ v₀
              else base)).lookup k = base.lookup k := by
          split_ifs with hc
          · exact lookup_set_key_ne base k₀ k v₀ hkne
          · rfl
        rw [hstep, ih _ hndrest k v hmem, hbase]

/-- C6 amended witness: a truthy enhancer value 99 overwrites the truthy
baseline value 50 for an existing key, while a falsy enhancer value leaves
the baseline value 50 in place. -/
theorem claim_merge_enhancer_precedence_witness :
    (merge_enhanced [("predicted_memory_usage_1h", PVal.num 50)]
        [("predicted_memory_usage_1h", PVal.num 99)]).lookup
        "predicted_memory_usage_1h" = some (PVal.num 99) ∧
    (merge_enhanced [("predicted_memory_usage_1h", PVal.num 50)]
        [("predicted_memory_usage_1h", PVal.nullV)]).lookup
        "predicted_memory_usage_1h" = some (PVal.num 50) := by
  have h1 := (claim_merge_enhancer_precedence
      [("predicted_memory_usage_1h", PVal.num 50)]
      [("predicted_memory_usage_1h", PVal.num 99)] (by simp)).1
      "predicted_memory_usage_1h" (PVal.num 99)
      (List.mem_singleton.mpr rfl)
  have h2 := (claim_merge_enhancer_precedence
      [("predicted_memory_usage_1h", PVal.num 50)]
      [("predicted_memory_usage_1h", PVal.nullV)] (by simp)).1
      "predicted_memory_usage_1h" PVal.nullV
      (List.mem_singleton.mpr rfl)
  constructor
  · rw [h1, if_pos ?_]
    have ht : truthy (PVal.num 99) = true := by norm_num [truthy]
    rw [ht]
    exact Bool.or_true _
  · rw [h2, if_neg ?_]
    · rfl
    · intro hcon
      have hlk : (List.lookup "predicted_memory_usage_1h"
          [("predicted_memory_usage_1h", PVal.num 50)]).isNone = false := rfl
      rw [hlk] at hcon
      simp [truthy] at hcon

/-- A successfully parsed meminfo input with all byte counts non-negative
and total positive, on which free + buffers + cached exceeds total. -/
def overlapMemInfo : MemInfo :=
  { MemTotal := 1000, MemFree := 600, MemAvailable := 600,
    Buffers := 300, Cached := 300 }

/-- C9 counterexample: on a parsed meminfo sample with non-negative byte
counts and positive total, the Linux provider returns
used_percent = -20, which is outside [0, 100]: used_percent is not
clamped. -/
theorem claim_used_percent_clamped_counterexample :
    0 < overlapMemInfo.MemTotal ∧
    (linuxMemoryStats overlapMemInfo).used = -200 ∧
    (linuxMemoryStats overlapMemInfo).used_percent = -20 ∧
    ¬(0 ≤ (linuxMemoryStats overlapMemInfo).used_percent) := by
  refine ⟨by norm_num [overlapMemInfo], by decide, ?_, ?_⟩ <;>
    norm_num [linuxMemoryStats, linuxUsedPercent, linuxUsed, overlapMemInfo]

/-- C9 amended: for every successfully parsed Linux meminfo input with
total > 0, the sample satisfies used = total - free - buffers - cached and
used_percent = used / total * 100 without clamping; used_percent never
exceeds 100, and it is non-negative exactly when
free + buffers + cached <= total. -/
theorem claim_used_percent_amended (m : MemInfo) (h : 0 < m.MemTotal) :
    (linuxMemoryStats m).used =
      (m.MemTotal : ℤ) - m.MemFree - m.Buffers - m.Cached ∧
    (linuxMemoryStats m).used_percent =
      ((linuxUsed m : ℚ) / (m.MemTotal : ℚ)) * 100 ∧
    (linuxMemoryStats m).used_percent ≤ 100 ∧
    (0 ≤ (linuxMemoryStats m).used_percent ↔
      (m.MemFree : ℤ) + m.Buffers + m.Cached ≤ m.MemTotal) := by
  have ht : (0 : ℚ) < (m.MemTotal : ℚ) := by exact_mod_cast h
  have hpct : (linuxMemoryStats m).used_percent =
      ((linuxUsed m : ℚ) / (m.MemTotal : ℚ)) * 100 := by
    simp only [linuxMemoryStats, linuxUsedPercent, if_pos h]
  refine ⟨rfl, hpct, ?_, ?_⟩
  · rw [hpct]
    have hu : (linuxUsed m : ℚ) ≤ (m.MemTotal : ℚ) := by
      have : linuxUsed m ≤ (m.MemTotal : ℤ) := by
        simp only [linuxUsed]
        have h1 : (0 : ℤ) ≤ (m.MemFree : ℤ) := Int.natCast_nonneg _
        have h2 : (0 : ℤ) ≤ (m.Buffers : ℤ) := Int.natCast_nonneg _
        have h3 : (0 : ℤ) ≤ (m.Cached : ℤ) := Int.natCast_nonneg _
        linarith
      exact_mod_cast this
    rw [div_mul_eq_mul_div, div_le_iff₀ ht]
    nlinarith
  · rw [hpct, div_mul_eq_mul_div]
    rw [le_div_iff₀ ht, zero_mul]
    constructor
    · intro h100
      have hu : (0 : ℚ) ≤ (linuxUsed m : ℚ) := by nlinarith
      have hu2 : (0 : ℤ) ≤ linuxUsed m := by exact_mod_cast hu
      simp only [linuxUsed] at hu2
      linarith
    · intro hsum
      have hu2 : (0 : ℤ) ≤ linuxUsed m := by
        simp only [linuxUsed]
        linarith
      have hu : (0 : ℚ) ≤ (linuxUsed m : ℚ) := by exact_mod_cast hu2
      nlinarith

/-- C9 amended witness: a meminfo sample with total 1000, free 200,
buffers 100, cached 100 yields used_percent = 60, inside [0, 100]. -/
theorem claim_used_percent_amended_witness :
    (linuxMemoryStats
        { MemTotal := 1000, MemFree := 200, MemAvailable := 800,
          Buffers := 100, Cached := 100 }).used_percent = 60 ∧
    (linuxMemoryStats
        { MemTotal := 1000, MemFree := 200, MemAvailable := 800,
          Buffers := 100, Cached := 100 }).used_percent ≤ 100 ∧
    0 ≤ (linuxMemoryStats
        { MemTotal := 1000, MemFree := 200, MemAvailable := 800,
          Buffers := 100, Cached := 100 }).used_percent := by
  have h := claim_used_percent_amended
    { MemTotal := 1000, MemFree := 200, MemAvailable := 800,
      Buffers := 100, Cached := 100 } (by norm_num)
  refine ⟨?_, h.2.2.1, h.2.2.2.mpr (by norm_num)⟩
  rw [h.2.1]
  norm_num [linuxUsed]

end SHM
